import Mathlib

/-!
Shallow embedding of the steam-id-filter service core, translated from the
JavaScript sources: queue-manager.js, proxy-manager.js, steam-validator.js,
app.js and index.js. Check statuses and check names are kept as the literal
strings used by the code. File reads and remote calls are embedded as explicit
inputs (Except values and outcome oracles), following the structure of the
corresponding JavaScript functions.
-/

/-- A queued item as stored in profiles_queue.json. The checks field is a
JavaScript object, embedded as an association list from check name to status
string, in insertion order. -/
structure Profile where
  steam_id : String
  username : String
  timestamp : Nat
  checks : List (String × String)
deriving DecidableEq, Repr, Inhabited

/-- JavaScript object read m[k], returning none for an absent key. -/
def objGet (m : List (String × String)) (k : String) : Option String :=
  match m.find? (fun kv => kv.1 == k) with
  | some kv => some kv.2
  | none => none

/-- JavaScript object assignment m[k] = v: overwrites the value when the key
is present, otherwise appends the new key at the end. -/
def objSet (m : List (String × String)) (k v : String) : List (String × String) :=
  if m.any (fun kv => kv.1 == k) then
    m.map (fun kv => if kv.1 == k then (kv.1, v) else kv)
  else m ++ [(k, v)]

/-- The seven check names, in the order used by addProfileToQueue. -/
def canonicalChecks : List String :=
  ["animated_avatar", "avatar_frame", "mini_profile_background",
   "profile_background", "steam_level", "friends", "csgo_inventory"]

/-- The five checks that do not go through the connection pool, in the order
written in getNextProcessableProfile. -/
def nonRateLimitedChecks : List String :=
  ["animated_avatar", "avatar_frame", "mini_profile_background",
   "profile_background", "steam_level"]

/-- The status strings accepted by updateProfileCheck. -/
def validStatuses : List String := ["to_check", "passed", "failed", "deferred"]

/-- The profile object built by addProfileToQueue: all seven checks start
at to_check. -/
def newProfile (steamId username : String) (timestamp : Nat) : Profile :=
  { steam_id := steamId, username := username, timestamp := timestamp,
    checks := canonicalChecks.map (fun c => (c, "to_check")) }

/-- queue-manager.js addProfileToQueue. The existence probe of the remote
service is an explicit input: some true means the remote reported exists,
some false means it reported not-exists, none means the probe failed or was
skipped (the code then appends anyway). The result pairs the returned value
(the JavaScript function returns the existing profile, null, or the new
profile) with the queue contents after the call. Note the function validates
the username but performs no format validation of the steam id. -/
def addProfileToQueue (profiles : List Profile) (steamId username : String)
    (existsInRemote : Option Bool) (timestamp : Nat) : Option Profile × List Profile :=
  match profiles.find? (fun p => p.steam_id == steamId) with
  | some existing => (some existing, profiles)
  | none =>
    if existsInRemote = some true then (none, profiles)
    else if username == "" then (none, profiles)
    else
      let p := newProfile steamId username timestamp
      (some p, profiles ++ [p])

/-- queue-manager.js updateProfileCheck: finds the first profile with the
given steam id, validates the status against validStatuses, and assigns
checks[checkName] = status. The check name itself is not validated. -/
def updateProfileCheck : List Profile → String → String → String → Bool × List Profile
  | [], _, _, _ => (false, [])
  | p :: ps, steamId, checkName, status =>
    if p.steam_id == steamId then
      if validStatuses.contains status then
        (true, { p with checks := objSet p.checks checkName status } :: ps)
      else (false, p :: ps)
    else
      let r := updateProfileCheck ps steamId checkName status
      (r.1, p :: r.2)

/-- queue-manager.js removeProfileFromQueue: filters out every profile with
the given steam id, writes the file only when the length shrank, and returns
whether a removal happened. -/
def removeProfileFromQueue (profiles : List Profile) (steamId : String) :
    Bool × List Profile :=
  let filteredProfiles := profiles.filter (fun p => !(p.steam_id == steamId))
  if filteredProfiles.length < profiles.length then (true, filteredProfiles)
  else (false, profiles)

/-- The per-profile rewrite performed by convertDeferredChecksToToCheck:
every deferred entry of the checks object becomes to_check. -/
def convertChecks (checks : List (String × String)) : List (String × String) :=
  checks.map (fun kv => if kv.2 == "deferred" then (kv.1, "to_check") else kv)

/-- queue-manager.js convertDeferredChecksToToCheck: rewrites every deferred
check to to_check and reports (queue, conversions, profilesAffected). -/
def convertDeferredChecksToToCheck (profiles : List Profile) :
    List Profile × Nat × Nat :=
  (profiles.map (fun p => { p with checks := convertChecks p.checks }),
   (profiles.map (fun p => (p.checks.filter (fun kv => kv.2 == "deferred")).length)).sum,
   (profiles.filter (fun p => p.checks.any (fun kv => kv.2 == "deferred"))).length)

/-- queue-manager.js getQueuedProfiles. The file read combined with JSON
parsing is embedded as an Except input; the catch branch of the source turns
any read or parse error into the empty list. -/
def getQueuedProfiles (readResult : Except String (List Profile)) : List Profile :=
  match readResult with
  | .ok profiles => profiles
  | .error _ => []

/-- The status of one check of one queued profile, reading the first profile
with the given steam id, as findIndex and find do in the source. -/
def statusOf (profiles : List Profile) (steamId checkName : String) : Option String :=
  match profiles.find? (fun p => p.steam_id == steamId) with
  | some p => objGet p.checks checkName
  | none => none

/-- Object.values(profile.checks).some(status equal to to_check). -/
def hasToCheckB (p : Profile) : Bool :=
  (p.checks.map Prod.snd).any (fun s => s == "to_check")

/-- Object.values(profile.checks).some(status equal to deferred). -/
def hasDeferredB (p : Profile) : Bool :=
  (p.checks.map Prod.snd).any (fun s => s == "deferred")

/-- Whether a profile has at least one of the five non-rate-limited checks
at to_check, as computed inside the fallback loop of
getNextProcessableProfile. -/
def hasNonRateLimitedToCheck (p : Profile) : Bool :=
  nonRateLimitedChecks.any (fun c => objGet p.checks c == some "to_check")

/-- queue-manager.js getNextProcessableProfile. The if and else branches of
the source are flattened into one decision chain; the four guarded branches
reproduce, in order, the four return points of the source, and the trailing
none is the final return null (reachable only on an empty queue, since each
fall-through path has allConnectionsInCooldown true). -/
def getNextProcessableProfile (profiles : List Profile)
    (allConnectionsInCooldown : Bool) : Option Profile :=
  match profiles with
  | [] => none
  | firstProfile :: _ =>
    if !hasToCheckB firstProfile && !hasDeferredB firstProfile then some firstProfile
    else if !hasToCheckB firstProfile && hasDeferredB firstProfile
        && !allConnectionsInCooldown then some firstProfile
    else if hasToCheckB firstProfile && !allConnectionsInCooldown then some firstProfile
    else if allConnectionsInCooldown then profiles.find? hasNonRateLimitedToCheck
    else none

/-- The selection algorithm exactly as the claim words it: a complete head is
returned; a head with to_check work or deferred work is returned when the
pool is not fully cooled; otherwise the scan from the head returns the first
item with a non-rate-limited check at to_check, or none. This definition
follows the claim text and is compared against the source translation. -/
def selectionSpecC1 (profiles : List Profile) (allPoolInCooldown : Bool) :
    Option Profile :=
  match profiles with
  | [] => none
  | h :: _ =>
    if !hasToCheckB h && !hasDeferredB h then some h
    else if !allPoolInCooldown then some h
    else profiles.find? hasNonRateLimitedToCheck

/-- C1: for every queue and every cooldown flag, getNextProcessableProfile
follows the head-first selection algorithm described by the claim. -/
theorem c1_selection_follows_spec (profiles : List Profile) (allPool : Bool) :
    getNextProcessableProfile profiles allPool = selectionSpecC1 profiles allPool := by
  cases profiles with
  | nil => rfl
  | cons h t =>
    simp only [getNextProcessableProfile, selectionSpecC1]
    cases hT : hasToCheckB h <;> cases hD : hasDeferredB h <;> cases allPool <;> simp

/-- C8: removeProfileFromQueue computes the removal flag as the existence of
a matching profile and the new queue as the filter dropping every match, and
the operation is idempotent: a second removal with the same id returns false
and leaves the queue unchanged, so the redundant second removal call in the
finalization path of index.js is a no-op. -/
theorem c8_remove_idempotent (profiles : List Profile) (steamId : String) :
    removeProfileFromQueue profiles steamId
      = (profiles.any (fun p => p.steam_id == steamId),
         profiles.filter (fun p => !(p.steam_id == steamId))) ∧
    removeProfileFromQueue (removeProfileFromQueue profiles steamId).2 steamId
      = (false, (removeProfileFromQueue profiles steamId).2) := by
  have hmain : ∀ l : List Profile,
      removeProfileFromQueue l steamId
        = (l.any (fun p => p.steam_id == steamId),
           l.filter (fun p => !(p.steam_id == steamId))) := by
    intro l
    unfold removeProfileFromQueue
    cases hA : l.any (fun p => p.steam_id == steamId) with
    | true =>
      obtain ⟨p, hp, hpid⟩ := List.any_eq_true.mp hA
      have hlt : (l.filter (fun p => !(p.steam_id == steamId))).length < l.length := by
        refine List.length_filter_lt_length_iff_exists.mpr ⟨p, hp, ?_⟩
        simp [hpid]
      simp [hlt]
    | false =>
      have hall : ∀ p ∈ l, (!(p.steam_id == steamId)) = true := by
        intro p hp
        have := List.any_eq_false.mp hA p hp
        simpa using this
      have heq : l.filter (fun p => !(p.steam_id == steamId)) = l :=
        List.filter_eq_self.mpr hall
      simp [heq]
  refine ⟨hmain profiles, ?_⟩
  have hX : (removeProfileFromQueue profiles steamId).2
      = profiles.filter (fun p => !(p.steam_id == steamId)) := by
    rw [hmain profiles]
  rw [hmain (removeProfileFromQueue profiles steamId).2, hX]
  have hmem : ∀ p ∈ profiles.filter (fun p => !(p.steam_id == steamId)),
      (!(p.steam_id == steamId)) = true := by
    intro p hp
    exact (List.mem_filter.mp hp).2
  have hany : (profiles.filter (fun p => !(p.steam_id == steamId))).any
      (fun p => p.steam_id == steamId) = false := by
    refine List.any_eq_false.mpr ?_
    intro p hp
    have := hmem p hp
    simp at this
    simp [this]
  have hfil := List.filter_eq_self.mpr hmem
  rw [hany, hfil]

/-- Aggregate statistics record produced by getQueueStats. -/
structure QueueStats where
  totalProfiles : Nat
  byUsername : List (String × Nat)
  to_check : Nat
  passed : Nat
  failed : Nat
  deferred : Nat
deriving DecidableEq, Repr

/-- The byUsername counter bump of getQueueStats, with JavaScript object
semantics on the association list. -/
def bumpCount (m : List (String × Nat)) (k : String) : List (String × Nat) :=
  if m.any (fun kv => kv.1 == k) then
    m.map (fun kv => if kv.1 == k then (kv.1, kv.2 + 1) else kv)
  else m ++ [(k, 1)]

/-- The inner loop of getQueueStats over the checks object: statuses outside
the four known ones are ignored. -/
def countCheckStatuses (st : QueueStats) (checks : List (String × String)) : QueueStats :=
  checks.foldl (fun st kv =>
    if kv.2 == "to_check" then { st with to_check := st.to_check + 1 }
    else if kv.2 == "passed" then { st with passed := st.passed + 1 }
    else if kv.2 == "failed" then { st with failed := st.failed + 1 }
    else if kv.2 == "deferred" then { st with deferred := st.deferred + 1 }
    else st) st

/-- queue-manager.js getQueueStats: total, per-username counts (an empty
username counts under unknown) and per-status counts. -/
def getQueueStats (profiles : List Profile) : QueueStats :=
  profiles.foldl (fun st p =>
    let username := if p.username == "" then "unknown" else p.username
    countCheckStatuses { st with byUsername := bumpCount st.byUsername username } p.checks)
    { totalProfiles := profiles.length, byUsername := [], to_check := 0,
      passed := 0, failed := 0, deferred := 0 }

/-- C10: when the file read or the JSON parse fails, getQueuedProfiles
returns the empty list instead of raising, so selection, statistics and
lookups built on it observe a corrupted queue file as an empty queue. -/
theorem c10_corrupt_queue_reads_empty (e : String) (cooldown : Bool) (steamId : String) :
    getQueuedProfiles (.error e) = [] ∧
    getNextProcessableProfile (getQueuedProfiles (.error e)) cooldown = none ∧
    getQueueStats (getQueuedProfiles (.error e)) = getQueueStats [] ∧
    (getQueuedProfiles (.error e)).find? (fun p => p.steam_id == steamId) = none :=
  ⟨rfl, rfl, rfl, rfl⟩

/-- queue-manager.js withFileOperation, embedded with an explicit fuel that
mirrors the while guard: the loop runs while attempts is at most maxRetries,
and fuel equals maxRetries + 1 - attempts, so a zero fuel is exactly the
fall-out return of the loop (unreachable when starting from zero attempts).
The operation is an oracle from the 1-based attempt number to its outcome.
The result carries the value returned or thrown, the list of waits performed
between attempts (each min(500 * attempts, 2000) milliseconds), and the total
number of attempts made. -/
def runAttempts (op : Nat → Except String α) (maxRetries : Nat) :
    Nat → Nat → Except String α × List Nat × Nat
  | _, 0 => (.error "", [], 0)
  | attempts, fuel + 1 =>
    match op (attempts + 1) with
    | .ok v => (.ok v, [], 1)
    | .error e =>
      if maxRetries < attempts + 1 then (.error e, [], 1)
      else
        let r := runAttempts op maxRetries (attempts + 1) fuel
        (r.1, min (500 * (attempts + 1)) 2000 :: r.2.1, r.2.2 + 1)

/-- withFileOperation with the default maxRetries of 3, started from zero
attempts as in the source. -/
def withFileOperation (op : Nat → Except String α) : Except String α × List Nat × Nat :=
  runAttempts op 3 0 4

/-- An operation that fails on every attempt. -/
def alwaysFailingOp : Nat → Except String Unit := fun _ => .error "disk failure"

/-- C5 counterexample: with an operation that keeps failing, the retry
wrapper makes four attempts in total, not at most three, and its waits are
500, 1000 and 1500 milliseconds rather than stopping after 500 and 1000. -/
theorem c5_counterexample :
    (withFileOperation alwaysFailingOp).2.2 = 4 ∧
    ¬ (withFileOperation alwaysFailingOp).2.2 ≤ 3 ∧
    (withFileOperation alwaysFailingOp).2.1 = [500, 1000, 1500] := by
  decide

/-- C5 amended: for an operation that keeps failing, the wrapper makes
exactly four attempts (one initial attempt plus maxRetries = 3 retries),
sleeping 500, 1000 and 1500 milliseconds after the first, second and third
failures (each wait is min(500 * k, 2000), hence capped at 2000), and
propagates the error of the fourth attempt to the caller. -/
theorem c5_retry_wrapper_amended {α : Type} (op : Nat → Except String α)
    (e : Nat → String) (hfail : ∀ k, op k = .error (e k)) :
    withFileOperation op = (.error (e 4), [500, 1000, 1500], 4) := by
  simp [withFileOperation, runAttempts, hfail 1, hfail 2, hfail 3, hfail 4]

/-- C5 witness: the amended theorem evaluated on a concrete operation. -/
theorem c5_retry_wrapper_amended_witness :
    withFileOperation (fun _ => (.error "x" : Except String Unit))
      = (.error "x", [500, 1000, 1500], 4) :=
  c5_retry_wrapper_amended (fun _ => .error "x") (fun _ => "x") (fun _ => rfl)

/-- Whether a string matches the 17-digit pattern tested by app.js. -/
def is17Digits (s : String) : Bool :=
  s.length == 17 && s.data.all (fun ch => ch.isDigit)

/-- Whitespace trimming as performed by the ingress handler before the
pattern test, embedded on the character list. -/
def trimString (s : String) : String :=
  let ws := fun ch => ch == ' ' || ch == '\t' || ch == '\n' || ch == '\r'
  ⟨((s.data.dropWhile ws).reverse.dropWhile ws).reverse⟩

/-- app.js input validation on the add-steam-id route: missing parameters,
then trim, then the 17-digit pattern, then a non-empty username; returns the
cleaned pair the route goes on to enqueue, or none for a 400 response. -/
def setupRoutesValidate (steam_id username : String) : Option (String × String) :=
  if steam_id == "" || username == "" then none
  else
    let cleanSteamId := trimString steam_id
    let cleanUsername := trimString username
    if !is17Digits cleanSteamId then none
    else if cleanUsername == "" then none
    else some (cleanSteamId, cleanUsername)

/-- C4 counterexample: the Queue Store itself appends an item whose account
id does not match the 17-digit pattern; addProfileToQueue performs no id
format validation. -/
theorem c4_counterexample :
    is17Digits "abc" = false ∧
    (addProfileToQueue [] "abc" "alice" (some false) 0)
      = (some (newProfile "abc" "alice" 0), [newProfile "abc" "alice" 0]) := by
  decide

/-- C4 amended: enqueue rejects an empty submitter (for an id not already
queued it returns null and leaves the queue unchanged), but it does not
validate the account id format; the 17-digit pattern is enforced only by the
HTTP ingress layer, whose accepted ids always satisfy is17Digits. -/
theorem c4_enqueue_validation_amended :
    (∀ (profiles : List Profile) (steamId : String) (er : Option Bool) (ts : Nat),
      profiles.find? (fun p => p.steam_id == steamId) = none →
      addProfileToQueue profiles steamId "" er ts = (none, profiles)) ∧
    (∀ sid u out, setupRoutesValidate sid u = some out → is17Digits out.1 = true) := by
  constructor
  · intro profiles steamId er ts hfind
    unfold addProfileToQueue
    rw [hfind]
    by_cases her : er = some true <;> simp [her]
  · intro sid u out h
    unfold setupRoutesValidate at h
    by_cases h1 : (sid == "" || u == "") = true
    · simp [h1] at h
    · simp only [h1, if_false, Bool.not_eq_true] at h
      by_cases h2 : is17Digits (trimString sid) = true
      · simp only [h2, Bool.not_true, if_false, Bool.false_eq_true] at h
        by_cases h3 : trimString u == ""
        · simp [h3] at h
        · simp only [h3, if_false, Bool.false_eq_true] at h
          cases h
          exact h2
      · simp [h2] at h

/-- C4 witness: the amended theorem evaluated on concrete inputs. -/
theorem c4_enqueue_validation_amended_witness :
    addProfileToQueue [] "76561197960434622" "" none 0 = ((none : Option Profile), []) ∧
    is17Digits "76561197960434622" = true :=
  ⟨c4_enqueue_validation_amended.1 [] "76561197960434622" none 0 rfl,
   c4_enqueue_validation_amended.2 "76561197960434622" "alice"
     ("76561197960434622", "alice") (by decide)⟩

/-- An egress connection record from config_proxies.json. -/
structure Connection where
  type : String
  url : Option String
  in_cooldown : Bool
  cooldown_until : Option Nat
  last_error : Option String
deriving DecidableEq, Repr

/-- The direct connection record created by the default configuration. -/
def defaultConnection : Connection :=
  { type := "direct", url := none, in_cooldown := false,
    cooldown_until := none, last_error := none }

/-- The pool state held by proxy-manager.js. -/
structure PoolConfig where
  connections : List Connection
  current_index : Nat
  cooldown_duration_ms : Nat
deriving DecidableEq, Repr

/-- proxy-manager.js DEFAULT_COOLDOWN_DURATION: 6 hours + 5 minutes. -/
def DEFAULT_COOLDOWN_DURATION : Nat := 21900000

/-- The expiry test of checkAndResetCooldowns. The source condition is
in_cooldown and cooldown_until truthy and cooldown_until at most now; a zero
timestamp is falsy in JavaScript, hence the explicit zero test. -/
def cooldownExpired (c : Connection) (now : Nat) : Bool :=
  c.in_cooldown &&
    (match c.cooldown_until with
     | some t => !(t == 0) && decide (t ≤ now)
     | none => false)

/-- The reset applied to an expired connection: the flag is cleared and the
deadline nulled. -/
def resetConnection (c : Connection) : Connection :=
  { c with in_cooldown := false, cooldown_until := none }

/-- proxy-manager.js checkAndResetCooldowns: lazily clears every expired
cooldown. -/
def checkAndResetCooldowns (conns : List Connection) (now : Nat) : List Connection :=
  conns.map (fun c => if cooldownExpired c now then resetConnection c else c)

/-- The rotation loop of getNextAvailableConnection: starting after idx,
advance modulo the pool size for at most as many steps as there are
connections, stopping at the first connection not in cooldown. -/
def findNextAvailable (conns : List Connection) : Nat → Nat → Option Nat
  | _, 0 => none
  | idx, fuel + 1 =>
    let index := (idx + 1) % conns.length
    if (conns.getD index defaultConnection).in_cooldown then
      findNextAvailable conns index fuel
    else some index

/-- The JavaScript Number.MAX_SAFE_INTEGER initial bound of the
earliest-expiry scan. -/
def MAX_SAFE_INTEGER : Nat := 9007199254740991

/-- The earliest-expiry scan of getNextAvailableConnection: index and time of
the connection with the smallest truthy cooldown_until, defaulting to index
zero and the initial bound. -/
def earliestCooldownIndex (conns : List Connection) : Nat × Nat :=
  (List.range conns.length).foldl
    (fun acc i =>
      match (conns.getD i defaultConnection).cooldown_until with
      | some t => if !(t == 0) && decide (t < acc.2) then (i, t) else acc
      | none => acc)
    (0, MAX_SAFE_INTEGER)

/-- The value produced by getNextAvailableConnection: the updated pool state,
the selected connection, and the all-in-cooldown marker fields attached to
the returned object when every connection is cooled. -/
structure RotationResult where
  cfg : PoolConfig
  conn : Connection
  allInCooldown : Bool
  earliestAvailable : Option Nat
deriving DecidableEq, Repr

/-- proxy-manager.js getNextAvailableConnection: sweep expired cooldowns,
rotate to the first available connection, and otherwise fall back to the
connection with the earliest expiry. -/
def getNextAvailableConnection (cfg : PoolConfig) (now : Nat) : RotationResult :=
  let swept := checkAndResetCooldowns cfg.connections now
  match findNextAvailable swept cfg.current_index swept.length with
  | some i =>
    { cfg := { cfg with connections := swept, current_index := i },
      conn := swept.getD i defaultConnection,
      allInCooldown := false, earliestAvailable := none }
  | none =>
    let e := earliestCooldownIndex swept
    { cfg := { cfg with connections := swept, current_index := e.1 },
      conn := swept.getD e.1 defaultConnection,
      allInCooldown := true, earliestAvailable := some e.2 }

/-- proxy-manager.js getCurrentConnection: sweep expired cooldowns first,
return the current connection when available, otherwise rotate. The pair
carries the pool state after the call together with the returned
connection. -/
def getCurrentConnection (cfg : PoolConfig) (now : Nat) : PoolConfig × Connection :=
  if ((checkAndResetCooldowns cfg.connections now).getD cfg.current_index
      defaultConnection).in_cooldown then
    let r := getNextAvailableConnection
      { cfg with connections := checkAndResetCooldowns cfg.connections now } now
    (r.cfg, r.conn)
  else
    ({ cfg with connections := checkAndResetCooldowns cfg.connections now },
     (checkAndResetCooldowns cfg.connections now).getD cfg.current_index defaultConnection)

/-- proxy-manager.js areAllConnectionsInCooldown: sweep, then test every
connection. -/
def areAllConnectionsInCooldown (cfg : PoolConfig) (now : Nat) : Bool :=
  (checkAndResetCooldowns cfg.connections now).all (fun c => c.in_cooldown)

/-- The duration and description chosen by markCurrentAsCooldown from the
error class and endpoint. The 429 branch with an endpoint other than friends
or inventory leaves both undefined in the source; the resulting NaN deadline
is falsy in every later read, which the embedding models as none. -/
def cooldownInfo (cfg : PoolConfig) (errorType endpoint : String) :
    Option Nat × String :=
  if errorType == "429" then
    if endpoint == "friends" then (some 300000, "Rate limited (429) on friends endpoint")
    else if endpoint == "inventory" then
      (some cfg.cooldown_duration_ms, "Rate limited (429) on inventory endpoint")
    else (none, "")
  else if errorType == "connection_error" then
    (some 600000, "Connection error on " ++ endpoint ++ " endpoint")
  else if errorType == "socks_error" then
    (some 900000, "SOCKS5 error on " ++ endpoint ++ " endpoint")
  else (some 600000, "Unknown error on " ++ endpoint ++ " endpoint")

/-- proxy-manager.js markCurrentAsCooldown: stamp the current connection with
in_cooldown, a deadline of now plus the chosen duration, and the last error
description, then rotate to the next available connection. -/
def markCurrentAsCooldown (cfg : PoolConfig) (now : Nat)
    (errorType endpoint errorMessage : String) : RotationResult :=
  let info := cooldownInfo cfg errorType endpoint
  let current := cfg.connections.getD cfg.current_index defaultConnection
  let stamped := { current with
    in_cooldown := true,
    cooldown_until := info.1.map (fun d => now + d),
    last_error := some (info.2 ++ ": " ++ errorMessage) }
  getNextAvailableConnection
    { cfg with connections := cfg.connections.set cfg.current_index stamped } now

/-- Character-list prefix test used by the substring search below. -/
def prefixMatch : List Char → List Char → Bool
  | [], _ => true
  | _ :: _, [] => false
  | n :: ns, h :: hs => n == h && prefixMatch ns hs

/-- Character-list substring search, the semantics of the JavaScript
String.includes used by makeApiRequest to classify endpoints. -/
def containsSub (needle : List Char) : List Char → Bool
  | [] => prefixMatch needle []
  | h :: t => prefixMatch needle (h :: t) || containsSub needle t

/-- String.includes on the embedded strings. -/
def strIncludes (s sub : String) : Bool := containsSub sub.data s.data

/-- The endpoint classification of steam-validator.js makeApiRequest for its
error handling: GetFriendList maps to friends, inventory to inventory, and
everything else to other. -/
def endpointOf (url : String) : String :=
  if strIncludes url "GetFriendList" then "friends"
  else if strIncludes url "inventory" then "inventory"
  else "other"

/-- The friends endpoint URL built by checkFriends. -/
def friendsUrl (key steamId : String) : String :=
  "https://api.steampowered.com/ISteamUser/GetFriendList/v0001/?key=" ++ key ++
    "&steamid=" ++ steamId ++ "&relationship=friend"

/-- The inventory URL built by checkCsgoInventory. -/
def inventoryUrl (steamId : String) : String :=
  "https://steamcommunity.com/inventory/" ++ steamId ++ "/730/2"

theorem get?_map_eq {α β : Type} (f : α → β) (l : List α) (i : Nat) :
    (l.map f).get? i = (l.get? i).map f := by
  induction l generalizing i with
  | nil => cases i <;> rfl
  | cons a t ih =>
    cases i with
    | zero => rfl
    | succ n => exact ih n

theorem get?_set_self {α : Type} (l : List α) (i : Nat) (a : α) (hi : i < l.length) :
    (l.set i a).get? i = some a := by
  induction l generalizing i with
  | nil => simp at hi
  | cons b t ih =>
    cases i with
    | zero => rfl
    | succ n => exact ih n (Nat.lt_of_succ_lt_succ hi)

theorem checkAndReset_get? (conns : List Connection) (now : Nat) (i : Nat)
    (c : Connection) (h : conns.get? i = some c) :
    (checkAndResetCooldowns conns now).get? i
      = some (if cooldownExpired c now then resetConnection c else c) := by
  unfold checkAndResetCooldowns
  rw [get?_map_eq, h]
  rfl

theorem getNextAvailableConnection_connections (cfg : PoolConfig) (now : Nat) :
    (getNextAvailableConnection cfg now).cfg.connections
      = checkAndResetCooldowns cfg.connections now := by
  cases hf : findNextAvailable (checkAndResetCooldowns cfg.connections now)
      cfg.current_index (checkAndResetCooldowns cfg.connections now).length <;>
    simp [getNextAvailableConnection, hf]

theorem markCurrentAsCooldown_stamped (cfg : PoolConfig) (now : Nat)
    (et ep msg : String)
    (hi : cfg.current_index < cfg.connections.length)
    (hnz : ∀ dm, (cooldownInfo cfg et ep).1 = some dm → 0 < dm) :
    (markCurrentAsCooldown cfg now et ep msg).cfg.connections.get? cfg.current_index
      = some { cfg.connections.getD cfg.current_index defaultConnection with
        in_cooldown := true,
        cooldown_until := (cooldownInfo cfg et ep).1.map (fun dm => now + dm),
        last_error := some ((cooldownInfo cfg et ep).2 ++ ": " ++ msg) } := by
  have hexp : cooldownExpired
      { cfg.connections.getD cfg.current_index defaultConnection with
        in_cooldown := true,
        cooldown_until := (cooldownInfo cfg et ep).1.map (fun dm => now + dm),
        last_error := some ((cooldownInfo cfg et ep).2 ++ ": " ++ msg) } now = false := by
    unfold cooldownExpired
    cases h : (cooldownInfo cfg et ep).1 with
    | none => simp
    | some dm =>
      have := hnz dm h
      simp only [Option.map_some]
      simp
      omega
  simp only [markCurrentAsCooldown]
  rw [getNextAvailableConnection_connections]
  simp only []
  rw [checkAndReset_get? _ now _ _ (get?_set_self _ _ _ hi), hexp]
  simp

/-- A small concrete pool used by witnesses: one direct connection. -/
def poolCfg1 : PoolConfig :=
  { connections := [defaultConnection], current_index := 0,
    cooldown_duration_ms := DEFAULT_COOLDOWN_DURATION }

/-- C3: markCurrentAsCooldown stamps the current connection with a deadline
of now plus the matrix duration: HTTP 429 on friends five minutes, HTTP 429
on the inventory endpoint the configured default, any connection error ten
minutes, any SOCKS error fifteen minutes, and unknown classes ten minutes;
the configured default is 6 hours 5 minutes; and the endpoint classification
of the validator maps the two rate-limited URLs to friends and inventory, so
the 429 class arises only with those endpoints. -/
theorem c3_cooldown_matrix (cfg : PoolConfig) (now : Nat) (msg ep et : String)
    (hi : cfg.current_index < cfg.connections.length)
    (hdm : 0 < cfg.cooldown_duration_ms)
    (het429 : et ≠ "429") (hetconn : et ≠ "connection_error")
    (hetsocks : et ≠ "socks_error") :
    ((markCurrentAsCooldown cfg now "429" "friends" msg).cfg.connections.get?
        cfg.current_index).map (fun c => (c.in_cooldown, c.cooldown_until))
      = some (true, some (now + 300000)) ∧
    ((markCurrentAsCooldown cfg now "429" "inventory" msg).cfg.connections.get?
        cfg.current_index).map (fun c => (c.in_cooldown, c.cooldown_until))
      = some (true, some (now + cfg.cooldown_duration_ms)) ∧
    ((markCurrentAsCooldown cfg now "connection_error" ep msg).cfg.connections.get?
        cfg.current_index).map (fun c => (c.in_cooldown, c.cooldown_until))
      = some (true, some (now + 600000)) ∧
    ((markCurrentAsCooldown cfg now "socks_error" ep msg).cfg.connections.get?
        cfg.current_index).map (fun c => (c.in_cooldown, c.cooldown_until))
      = some (true, some (now + 900000)) ∧
    ((markCurrentAsCooldown cfg now et ep msg).cfg.connections.get?
        cfg.current_index).map (fun c => (c.in_cooldown, c.cooldown_until))
      = some (true, some (now + 600000)) ∧
    DEFAULT_COOLDOWN_DURATION = 6 * 3600000 + 5 * 60000 ∧
    endpointOf (friendsUrl "K" "76561197960434622") = "friends" ∧
    endpointOf (inventoryUrl "76561197960434622") = "inventory" := by
  have hstamp : ∀ et2 ep2, (∀ dm, (cooldownInfo cfg et2 ep2).1 = some dm → 0 < dm) →
      ((markCurrentAsCooldown cfg now et2 ep2 msg).cfg.connections.get?
          cfg.current_index).map (fun c => (c.in_cooldown, c.cooldown_until))
        = some (true, (cooldownInfo cfg et2 ep2).1.map (fun dm => now + dm)) := by
    intro et2 ep2 hnz
    rw [markCurrentAsCooldown_stamped cfg now et2 ep2 msg hi hnz]
    rfl
  refine ⟨?_, ?_, ?_, ?_, ?_, ?_, ?_, ?_⟩
  · have h := hstamp "429" "friends" (by intro dm hdm2; simp [cooldownInfo] at hdm2; omega)
    simpa [cooldownInfo] using h
  · have h := hstamp "429" "inventory"
      (by intro dm hdm2; simp [cooldownInfo] at hdm2; omega)
    simpa [cooldownInfo] using h
  · have h := hstamp "connection_error" ep
      (by intro dm hdm2; simp [cooldownInfo] at hdm2; omega)
    simpa [cooldownInfo] using h
  · have h := hstamp "socks_error" ep
      (by intro dm hdm2; simp [cooldownInfo] at hdm2; omega)
    simpa [cooldownInfo] using h
  · have h := hstamp et ep
      (by intro dm hdm2; simp [cooldownInfo, het429, hetconn, hetsocks] at hdm2; omega)
    simpa [cooldownInfo, het429, hetconn, hetsocks] using h
  · norm_num [DEFAULT_COOLDOWN_DURATION]
  · decide
  · decide

/-- C3 witness: the matrix theorem evaluated on a concrete pool. -/
theorem c3_cooldown_matrix_witness :
    ((markCurrentAsCooldown poolCfg1 7 "429" "friends" "m").cfg.connections.get?
        poolCfg1.current_index).map (fun c => (c.in_cooldown, c.cooldown_until))
      = some (true, some (7 + 300000)) :=
  (c3_cooldown_matrix poolCfg1 7 "m" "other" "weird" (by decide) (by decide)
    (by decide) (by decide) (by decide)).1

/-- C7: a connection stamped at time t with duration d is reported available
by any pool read at a time tp at least t + d: the cooldown sweep that runs
before the read clears the in_cooldown flag and nulls cooldown_until, the
pool state returned by getCurrentConnection carries the cleared connection,
and the all-in-cooldown test performed after the sweep reports false. -/
theorem c7_cooldown_expiry (cfg : PoolConfig) (i t d tp : Nat) (c : Connection)
    (hi : cfg.connections.get? i = some c)
    (hc : c.in_cooldown = true)
    (hu : c.cooldown_until = some (t + d))
    (hd : 0 < d) (ht : t + d ≤ tp) :
    (getCurrentConnection cfg tp).1.connections.get? i = some (resetConnection c) ∧
    areAllConnectionsInCooldown cfg tp = false := by
  have hexp : cooldownExpired c tp = true := by
    unfold cooldownExpired
    rw [hc, hu]
    simp
    omega
  have h1 : (checkAndResetCooldowns cfg.connections tp).get? i
      = some (resetConnection c) := by
    rw [checkAndReset_get? cfg.connections tp i c hi, hexp]
    simp
  have h2 : (checkAndResetCooldowns (checkAndResetCooldowns cfg.connections tp) tp).get? i
      = some (resetConnection c) := by
    rw [checkAndReset_get? _ tp i _ h1]
    have hres : cooldownExpired (resetConnection c) tp = false := by
      unfold cooldownExpired resetConnection
      simp
    rw [hres]
    simp
  constructor
  · unfold getCurrentConnection
    split
    · simp only [getNextAvailableConnection_connections]
      simpa using h2
    · simpa using h1
  · unfold areAllConnectionsInCooldown
    cases hall : (checkAndResetCooldowns cfg.connections tp).all (fun c => c.in_cooldown)
    · rfl
    · have hmem := List.get?_mem h1
      have hcool := List.all_eq_true.mp hall _ hmem
      simp [resetConnection] at hcool

/-- A connection cooled until time 15, used by the C7 witness. -/
def cooledConn1 : Connection :=
  { type := "direct", url := none, in_cooldown := true,
    cooldown_until := some 15, last_error := none }

/-- A pool whose only connection is cooled, used by the C7 witness. -/
def poolCfg2 : PoolConfig :=
  { connections := [cooledConn1], current_index := 0,
    cooldown_duration_ms := DEFAULT_COOLDOWN_DURATION }

/-- C7 witness: the expiry theorem evaluated on a concrete cooled pool at a
time past the deadline. -/
theorem c7_cooldown_expiry_witness :
    (getCurrentConnection poolCfg2 20).1.connections.get? 0
        = some (resetConnection cooledConn1) ∧
    areAllConnectionsInCooldown poolCfg2 20 = false :=
  c7_cooldown_expiry poolCfg2 0 5 10 20 cooledConn1 rfl rfl rfl (by decide) (by decide)

/-- The outcome of one validator check as seen by the worker loop: a
definitive result carrying the passed flag (and, for steam_level, the
private-profile marker produced by an empty response), a deferral because
the whole pool is cooled, or a transient error. -/
inductive Outcome
  | ok (passed : Bool) (isPrivate : Bool)
  | deferredO
  | errO
deriving DecidableEq, Repr

/-- One observable event of a worker pass over an item: a validator call
(the only kind of event that can produce outbound traffic), a queue status
write, or the removal of the item. -/
inductive Ev
  | call (check : String)
  | upd (check status : String)
  | removeItem
deriving DecidableEq, Repr

/-- Whether a check is one of the two rate-limited checks, as tested by the
worker loop. -/
def isRateLimitedCheck (c : String) : Bool :=
  c == "friends" || c == "csgo_inventory"

/-- The per-item check loop of processQueuedProfiles in index.js, embedded
as the trace of events it produces. Arguments: the outcome oracle standing
for the validator calls, the all-pool-cooled flag, the list of checks still
at to_check in canonical order, and the private-profile flag accumulated by
the loop. The private branch and the cooldown branch write without calling;
a dispatched check that fails validation records the removal and stops the
loop; a transient error stops the loop with no write; a deferral or a pass
records the write and continues, and a steam_level pass carrying the
private marker raises the flag for the remaining checks. -/
def runChecks (oracle : String → Outcome) (allCooldown : Bool) :
    List String → Bool → List Ev
  | [], _ => []
  | c :: rest, isPriv =>
    if isPriv && isRateLimitedCheck c then
      Ev.upd c "passed" :: runChecks oracle allCooldown rest isPriv
    else if isRateLimitedCheck c && allCooldown then
      Ev.upd c "deferred" :: runChecks oracle allCooldown rest isPriv
    else
      match oracle c with
      | .deferredO =>
        Ev.call c :: Ev.upd c "deferred" :: runChecks oracle allCooldown rest isPriv
      | .errO => [Ev.call c]
      | .ok true priv =>
        Ev.call c :: Ev.upd c "passed"
          :: runChecks oracle allCooldown rest (isPriv || (c == "steam_level" && priv))
      | .ok false _ => [Ev.call c, Ev.removeItem]

/-- C6: once steam_level reports the private marker during a pass of the
worker over an item, every subsequent rate-limited check of that same pass
is recorded passed in the queue with no validator call, hence no outbound
call, for it; in the canonical order the checks after steam_level are
exactly the two rate-limited ones. -/
theorem c6_private_short_circuit (oracle : String → Outcome) (allCooldown : Bool)
    (rest : List String)
    (hrl : ∀ c ∈ rest, c = "friends" ∨ c = "csgo_inventory")
    (hsl : oracle "steam_level" = .ok true true) :
    runChecks oracle allCooldown ("steam_level" :: rest) false
      = Ev.call "steam_level" :: Ev.upd "steam_level" "passed"
          :: rest.map (fun c => Ev.upd c "passed") := by
  have hpriv : ∀ l, (∀ c ∈ l, c = "friends" ∨ c = "csgo_inventory") →
      runChecks oracle allCooldown l true = l.map (fun c => Ev.upd c "passed") := by
    intro l hl
    induction l with
    | nil => rfl
    | cons c cs ih =>
      have hc := hl c (List.mem_cons_self c cs)
      have hrlc : isRateLimitedCheck c = true := by
        cases hc with
        | inl h => rw [h]; rfl
        | inr h => rw [h]; rfl
      simp [runChecks, hrlc, ih (fun x hx => hl x (List.mem_cons_of_mem c hx))]
  simp [runChecks, isRateLimitedCheck, hsl, hpriv rest hrl]

/-- The validator oracle used by the C6 witness: steam_level reports the
private marker and every other check passes. -/
def oracleC6 : String → Outcome :=
  fun c => if c == "steam_level" then .ok true true else .ok true false

/-- C6 witness: the short-circuit theorem evaluated on the two rate-limited
checks following steam_level. -/
theorem c6_private_short_circuit_witness :
    runChecks oracleC6 false ("steam_level" :: ["friends", "csgo_inventory"]) false
      = Ev.call "steam_level" :: Ev.upd "steam_level" "passed"
          :: ["friends", "csgo_inventory"].map (fun c => Ev.upd c "passed") :=
  c6_private_short_circuit oracleC6 false ["friends", "csgo_inventory"]
    (by decide) (by decide)


theorem map_fst_of_fst_preserving (f : String × String → String × String)
    (hf : ∀ kv, (f kv).1 = kv.1) (m : List (String × String)) :
    (m.map f).map Prod.fst = m.map Prod.fst := by
  induction m with
  | nil => rfl
  | cons kv t ih => simp only [List.map_cons, hf, ih]

theorem objSet_keys (m : List (String × String)) (k v : String)
    (hk : m.any (fun kv => kv.1 == k) = true) :
    (objSet m k v).map Prod.fst = m.map Prod.fst := by
  unfold objSet
  rw [if_pos hk]
  exact map_fst_of_fst_preserving _
    (fun kv => by by_cases h : (kv.1 == k) = true <;> simp [h]) m

theorem any_key_of_keys_mem (m : List (String × String)) (c : String)
    (h : c ∈ m.map Prod.fst) : m.any (fun kv => kv.1 == c) = true := by
  obtain ⟨kv, hkv, hfst⟩ := List.mem_map.mp h
  exact List.any_eq_true.mpr ⟨kv, hkv, by simp [hfst]⟩

theorem convertChecks_keys (m : List (String × String)) :
    (convertChecks m).map Prod.fst = m.map Prod.fst := by
  unfold convertChecks
  exact map_fst_of_fst_preserving _
    (fun kv => by by_cases h : (kv.2 == "deferred") = true <;> simp [h]) m

/-- A fresh canonical profile used by the C9 theorems. -/
def p9 : Profile := newProfile "76561197960000001" "carol" 0

/-- C9 counterexample: updateProfileCheck called with a check name outside
the seven canonical ones adds an eighth key to the checks object of the
item, so the operation does not preserve the exactly-seven-keys invariant
for arbitrary check-name arguments. -/
theorem c9_counterexample :
    ((updateProfileCheck [p9] "76561197960000001" "bogus_check" "passed").2.map
        (fun p => p.checks.map Prod.fst)) = [canonicalChecks ++ ["bogus_check"]] ∧
    "bogus_check" ∉ canonicalChecks := by
  decide

/-- C9 amended: a newly enqueued item has exactly the seven canonical check
keys, and every Queue Store operation preserves that key set provided
update_check is called with one of the seven canonical names; with a name
outside the seven, update_check adds that key instead (see the
counterexample). -/
theorem c9_checks_keys_amended :
    (∀ id u ts, (newProfile id u ts).checks.map Prod.fst = canonicalChecks) ∧
    (∀ (q : List Profile) (id u : String) (er : Option Bool) (ts : Nat),
      (∀ p ∈ q, p.checks.map Prod.fst = canonicalChecks) →
      ∀ p2 ∈ (addProfileToQueue q id u er ts).2,
        p2.checks.map Prod.fst = canonicalChecks) ∧
    (∀ (q : List Profile) (id c s : String), c ∈ canonicalChecks →
      (∀ p ∈ q, p.checks.map Prod.fst = canonicalChecks) →
      ∀ p2 ∈ (updateProfileCheck q id c s).2,
        p2.checks.map Prod.fst = canonicalChecks) ∧
    (∀ (q : List Profile) (id : String),
      (∀ p ∈ q, p.checks.map Prod.fst = canonicalChecks) →
      ∀ p2 ∈ (removeProfileFromQueue q id).2,
        p2.checks.map Prod.fst = canonicalChecks) ∧
    (∀ (q : List Profile),
      (∀ p ∈ q, p.checks.map Prod.fst = canonicalChecks) →
      ∀ p2 ∈ (convertDeferredChecksToToCheck q).1,
        p2.checks.map Prod.fst = canonicalChecks) := by
  have hnew : ∀ (id u : String) (ts : Nat),
      (newProfile id u ts).checks.map Prod.fst = canonicalChecks := by
    intro id u ts
    show (canonicalChecks.map (fun c => (c, "to_check"))).map Prod.fst = canonicalChecks
    decide
  refine ⟨hnew, ?_, ?_, ?_, ?_⟩
  · intro q id u er ts hq p2 hp2
    unfold addProfileToQueue at hp2
    cases hfind : q.find? (fun p => p.steam_id == id) with
    | some existing => rw [hfind] at hp2; exact hq p2 hp2
    | none =>
      rw [hfind] at hp2
      by_cases her : er = some true
      · simp [her] at hp2; exact hq p2 hp2
      · by_cases hu : (u == "") = true
        · simp [her, hu] at hp2; exact hq p2 hp2
        · simp [her, hu] at hp2
          rcases hp2 with h | h
          · exact hq p2 h
          · rw [h]; exact hnew id u ts
  · intro q id c s hc hq
    induction q with
    | nil => intro p2 hp2; simp [updateProfileCheck] at hp2
    | cons p ps ih =>
      intro p2 hp2
      by_cases hpid : (p.steam_id == id) = true
      · by_cases hval : s ∈ validStatuses
        · simp [updateProfileCheck, hpid, hval] at hp2
          rcases hp2 with h | h
          · rw [h]
            have hkeys := hq p (List.mem_cons_self p ps)
            have hany : p.checks.any (fun kv => kv.1 == c) = true :=
              any_key_of_keys_mem p.checks c (by rw [hkeys]; exact hc)
            simpa [objSet_keys p.checks c s hany] using hkeys
          · exact hq p2 (List.mem_cons_of_mem p h)
        · simp [updateProfileCheck, hpid, hval] at hp2
          rcases hp2 with h | h
          · rw [h]; exact hq p (List.mem_cons_self p ps)
          · exact hq p2 (List.mem_cons_of_mem p h)
      · simp [updateProfileCheck, hpid] at hp2
        rcases hp2 with h | h
        · rw [h]; exact hq p (List.mem_cons_self p ps)
        · exact ih (fun x hx => hq x (List.mem_cons_of_mem p hx)) p2 h
  · intro q id hq p2 hp2
    simp only [removeProfileFromQueue] at hp2
    by_cases hlt : (q.filter (fun p => !(p.steam_id == id))).length < q.length
    · rw [if_pos hlt] at hp2
      exact hq p2 (List.mem_of_mem_filter hp2)
    · rw [if_neg hlt] at hp2
      exact hq p2 hp2
  · intro q hq p2 hp2
    simp only [convertDeferredChecksToToCheck, List.mem_map] at hp2
    obtain ⟨p, hp, hpeq⟩ := hp2
    rw [← hpeq]
    simpa [convertChecks_keys] using hq p hp

/-- C9 witness: the amended theorem evaluated on a concrete update of the
friends check of a canonical item. -/
theorem c9_checks_keys_amended_witness :
    ((updateProfileCheck [p9] "76561197960000001" "friends" "passed").2.headD p9).checks.map
        Prod.fst = canonicalChecks :=
  c9_checks_keys_amended.2.2.1 [p9] "76561197960000001" "friends" "passed"
    (by decide) (by decide)
    ((updateProfileCheck [p9] "76561197960000001" "friends" "passed").2.headD p9)
    (by decide)

/-- The state threaded through processDeferredChecks in steam-validator.js:
the queue contents, the in-memory deferred map from steam id to the deferred
check names of that id, and the processed counter. -/
structure DefState where
  queue : List Profile
  deferredMap : List (String × List String)
  processed : Nat
deriving DecidableEq, Repr

/-- steam-validator.js clearDeferredCheck: remove one check name from the
set of the given id and drop the entry of that id when its set becomes
empty. -/
def clearDeferredCheck (d : List (String × List String)) (id c : String) :
    List (String × List String) :=
  (d.map (fun e => if e.1 == id then (e.1, e.2.filter (fun x => !(x == c))) else e)).filter
    (fun e => !(e.1 == id && e.2.isEmpty))

/-- The inner loop of processDeferredChecks over the check names of one
snapshot entry. The Bool reports the early return taken when a re-run check
comes back deferred again: the check stays in the map and the pass stops. A
success writes passed or failed straight into the queue and clears the
entry; an error clears the entry with no queue write. -/
def processEntryChecks (oracle : String → String → Outcome) (id : String) :
    DefState → List String → DefState × Bool
  | st, [] => (st, false)
  | st, c :: cs =>
    match oracle id c with
    | .deferredO => (st, true)
    | .errO =>
      processEntryChecks oracle id
        { st with deferredMap := clearDeferredCheck st.deferredMap id c } cs
    | .ok passed _ =>
      processEntryChecks oracle id
        { queue := (updateProfileCheck st.queue id c
            (if passed then "passed" else "failed")).2,
          deferredMap := clearDeferredCheck st.deferredMap id c,
          processed := st.processed + 1 } cs

/-- The outer loop of processDeferredChecks over the snapshot of the
deferred map taken on entry, while the live map is updated in place. -/
def processEntries (oracle : String → String → Outcome) :
    DefState → List (String × List String) → DefState
  | st, [] => st
  | st, (id, cs) :: rest =>
    let r := processEntryChecks oracle id st cs
    if r.2 then r.1 else processEntries oracle r.1 rest

/-- steam-validator.js processDeferredChecks: when at least one connection
is available, re-run every deferred check from the snapshot of the in-memory
map; a success writes passed or failed directly into the queue. -/
def processDeferredChecks (oracle : String → String → Outcome)
    (availableConnections : Nat) (st : DefState) : DefState :=
  if availableConnections == 0 then st
  else processEntries oracle st st.deferredMap

/-- A queued item whose friends check is deferred while the rest passed,
used by the C2 theorems. -/
def profileC2 : Profile :=
  { steam_id := "76561197960287930", username := "bob", timestamp := 0,
    checks := [("animated_avatar", "passed"), ("avatar_frame", "passed"),
      ("mini_profile_background", "passed"), ("profile_background", "passed"),
      ("steam_level", "passed"), ("friends", "deferred"), ("csgo_inventory", "passed")] }

/-- The oracle of the C2 counterexample: the re-run friends check returns a
definitive failing outcome. -/
def oracleC2 : String → String → Outcome := fun _ _ => .ok false false

/-- C2 counterexample: the deferred-check reprocessing path moves the
friends check of a concrete item directly from deferred to failed in the
queue, with no intermediate to_check write, refuting the claimed
monotonicity order on this code path. -/
theorem c2_counterexample :
    statusOf [profileC2] "76561197960287930" "friends" = some "deferred" ∧
    statusOf (processDeferredChecks oracleC2 1
        { queue := [profileC2],
          deferredMap := [("76561197960287930", ["friends"])],
          processed := 0 }).queue "76561197960287930" "friends" = some "failed" := by
  decide


theorem objGet_cons (kv : String × String) (m : List (String × String)) (k : String) :
    objGet (kv :: m) k = if (kv.1 == k) = true then some kv.2 else objGet m k := by
  cases h : kv.1 == k with
  | true => simp [objGet, List.find?_cons, h]
  | false => simp [objGet, List.find?_cons, h]

theorem objGet_mapSet_self (m : List (String × String)) (k v : String)
    (hk : m.any (fun kv => kv.1 == k) = true) :
    objGet (m.map (fun kv => if kv.1 == k then (kv.1, v) else kv)) k = some v := by
  induction m with
  | nil => simp at hk
  | cons kv t ih =>
    cases h : kv.1 == k with
    | true =>
      have heq : kv.1 = k := eq_of_beq h
      simp [objGet_cons, heq]
    | false =>
      have hne : ¬(kv.1 = k) := by simpa using h
      have ht : t.any (fun kv => kv.1 == k) = true := by
        rw [List.any_cons, h] at hk
        simpa using hk
      simpa [objGet_cons, hne] using ih ht

theorem objGet_append_single_self (m : List (String × String)) (k v : String) :
    objGet (m ++ [(k, v)]) k = if (m.any (fun kv => kv.1 == k)) = true
      then objGet m k else some v := by
  induction m with
  | nil => simp [objGet_cons]
  | cons kv t ih =>
    cases h : kv.1 == k with
    | true =>
      have heq : kv.1 = k := eq_of_beq h
      simp [objGet_cons, heq]
    | false =>
      have hne : ¬(kv.1 = k) := by simpa using h
      rw [List.cons_append, objGet_cons, if_neg (by simp [hne]), ih, List.any_cons, h,
        Bool.false_or, objGet_cons]
      cases hat : t.any (fun kv => kv.1 == k) with
      | true => simp [hat, h]
      | false => simp [hat]

theorem objGet_objSet_self (m : List (String × String)) (k v : String) :
    objGet (objSet m k v) k = some v := by
  unfold objSet
  by_cases hk : m.any (fun kv => kv.1 == k) = true
  · rw [if_pos hk]
    exact objGet_mapSet_self m k v hk
  · rw [if_neg hk]
    have hk2 : m.any (fun kv => kv.1 == k) = false := Bool.eq_false_iff.mpr hk
    rw [objGet_append_single_self, hk2]
    simp

theorem objGet_mapSet_other (m : List (String × String)) (k v k2 : String)
    (hne : ¬(k2 = k)) :
    objGet (m.map (fun kv => if kv.1 == k then (kv.1, v) else kv)) k2
      = objGet m k2 := by
  induction m with
  | nil => rfl
  | cons kv t ih =>
    cases h : kv.1 == k with
    | true =>
      have heq : kv.1 = k := eq_of_beq h
      have hk2 : ¬(k = k2) := fun hh => hne hh.symm
      simpa [objGet_cons, heq, hk2] using ih
    | false =>
      have hne2 : ¬(kv.1 = k) := by simpa using h
      by_cases h2 : (kv.1 == k2) = true
      · simp [objGet_cons, hne2, hne, eq_of_beq h2]
      · have hne3 : ¬(kv.1 = k2) := by simpa using h2
        simpa [objGet_cons, hne2, hne3] using ih

theorem objGet_append_single_other (m : List (String × String)) (k v k2 : String)
    (hne : ¬(k2 = k)) :
    objGet (m ++ [(k, v)]) k2 = objGet m k2 := by
  induction m with
  | nil =>
    have hkk : ¬(k = k2) := fun hh => hne hh.symm
    simp [objGet_cons, hkk, objGet]
  | cons kv t ih =>
    by_cases h2 : (kv.1 == k2) = true
    · simp [objGet_cons, eq_of_beq h2]
    · have hne3 : ¬(kv.1 = k2) := by simpa using h2
      simpa [objGet_cons, hne3] using ih

theorem objGet_objSet_other (m : List (String × String)) (k v k2 : String)
    (hne : ¬(k2 = k)) :
    objGet (objSet m k v) k2 = objGet m k2 := by
  unfold objSet
  by_cases hk : m.any (fun kv => kv.1 == k) = true
  · rw [if_pos hk]
    exact objGet_mapSet_other m k v k2 hne
  · rw [if_neg hk]
    exact objGet_append_single_other m k v k2 hne

theorem statusOf_cons (p : Profile) (ps : List Profile) (id c : String) :
    statusOf (p :: ps) id c
      = if (p.steam_id == id) = true then objGet p.checks c else statusOf ps id c := by
  cases h : p.steam_id == id with
  | true => simp [statusOf, List.find?_cons, h]
  | false => simp [statusOf, List.find?_cons, h]

theorem statusOf_updateProfileCheck (q : List Profile) (id c s id2 c2 : String) :
    statusOf (updateProfileCheck q id c s).2 id2 c2 = statusOf q id2 c2
      ∨ ((id2 == id) = true ∧ (c2 == c) = true ∧
          statusOf (updateProfileCheck q id c s).2 id2 c2 = some s) := by
  induction q with
  | nil => left; rfl
  | cons p ps ih =>
    by_cases hpid : (p.steam_id == id) = true
    · by_cases hval : s ∈ validStatuses
      · have hres : (updateProfileCheck (p :: ps) id c s).2
            = { p with checks := objSet p.checks c s } :: ps := by
          simp [updateProfileCheck, hpid, hval]
        rw [hres]
        by_cases hp2 : (p.steam_id == id2) = true
        · by_cases hc2 : (c2 == c) = true
          · right
            refine ⟨?_, hc2, ?_⟩
            · have h1 := eq_of_beq hpid
              have h2 := eq_of_beq hp2
              have : id2 = id := by rw [← h2, h1]
              exact beq_iff_eq.mpr this
            · rw [statusOf_cons, if_pos hp2, eq_of_beq hc2, objGet_objSet_self]
          · left
            rw [statusOf_cons, if_pos hp2, statusOf_cons, if_pos hp2]
            exact objGet_objSet_other p.checks c s c2 (by simpa using hc2)
        · left
          rw [statusOf_cons, if_neg hp2, statusOf_cons, if_neg hp2]
      · have hres : (updateProfileCheck (p :: ps) id c s).2 = p :: ps := by
          simp [updateProfileCheck, hpid, hval]
        rw [hres]; left; rfl
    · have hres : (updateProfileCheck (p :: ps) id c s).2
          = p :: (updateProfileCheck ps id c s).2 := by
        simp [updateProfileCheck, hpid]
      rw [hres]
      by_cases hp2 : (p.steam_id == id2) = true
      · left
        rw [statusOf_cons, if_pos hp2, statusOf_cons, if_pos hp2]
      · rw [statusOf_cons, if_neg hp2, statusOf_cons, if_neg hp2]
        exact ih

theorem statusOf_filter_self (q : List Profile) (id c2 : String) :
    statusOf (q.filter (fun p => !(p.steam_id == id))) id c2 = none := by
  have hf : (q.filter (fun p => !(p.steam_id == id))).find?
      (fun p => p.steam_id == id) = none := by
    refine List.find?_eq_none.mpr ?_
    intro p hp
    have h2 := (List.mem_filter.mp hp).2
    simp at h2
    simp [h2]
  unfold statusOf
  rw [hf]

theorem statusOf_filter_ne (q : List Profile) (id id2 c2 : String)
    (hne : ¬(id2 = id)) :
    statusOf (q.filter (fun p => !(p.steam_id == id))) id2 c2
      = statusOf q id2 c2 := by
  induction q with
  | nil => rfl
  | cons p ps ih =>
    by_cases hpid : (p.steam_id == id) = true
    · have hp2 : ¬((p.steam_id == id2) = true) := by
        have h1 := eq_of_beq hpid
        simp [h1]
        exact fun hh => hne hh.symm
      rw [List.filter_cons_of_neg (by simp [hpid]), statusOf_cons, if_neg hp2]
      exact ih
    · rw [List.filter_cons_of_pos (by simp [hpid])]
      rw [statusOf_cons, statusOf_cons]
      by_cases hp2 : (p.steam_id == id2) = true
      · rw [if_pos hp2, if_pos hp2]
      · rw [if_neg hp2, if_neg hp2]
        exact ih

theorem statusOf_removeProfileFromQueue (q : List Profile) (id id2 c2 : String) :
    statusOf (removeProfileFromQueue q id).2 id2 c2 = statusOf q id2 c2
      ∨ statusOf (removeProfileFromQueue q id).2 id2 c2 = none := by
  simp only [removeProfileFromQueue]
  by_cases hlt : (q.filter (fun p => !(p.steam_id == id))).length < q.length
  · rw [if_pos hlt]
    by_cases hid : (id2 == id) = true
    · right
      have h1 := eq_of_beq hid
      rw [h1]
      exact statusOf_filter_self q id c2
    · left
      exact statusOf_filter_ne q id id2 c2 (by simpa using hid)
  · rw [if_neg hlt]
    left
    rfl

theorem objGet_convertChecks (m : List (String × String)) (c : String) :
    objGet (convertChecks m) c
      = (objGet m c).map (fun s => if s == "deferred" then "to_check" else s) := by
  induction m with
  | nil => rfl
  | cons kv t ih =>
    by_cases hk : (kv.1 == c) = true
    · cases hd : kv.2 == "deferred" with
      | true => simp [convertChecks, objGet_cons, eq_of_beq hk, hd, eq_of_beq hd]
      | false =>
        have hnd : ¬(kv.2 = "deferred") := by simpa using hd
        simp [convertChecks, objGet_cons, eq_of_beq hk, hnd]
    · have hnk : ¬(kv.1 = c) := by simpa using hk
      cases hd : kv.2 == "deferred" with
      | true => simpa [convertChecks, objGet_cons, hnk, eq_of_beq hd] using ih
      | false =>
        have hnd : ¬(kv.2 = "deferred") := by simpa using hd
        simpa [convertChecks, objGet_cons, hnk, hnd] using ih

theorem statusOf_convert (q : List Profile) (id c : String) :
    statusOf (convertDeferredChecksToToCheck q).1 id c
      = (statusOf q id c).map (fun s => if s == "deferred" then "to_check" else s) := by
  induction q with
  | nil => rfl
  | cons p ps ih =>
    show statusOf ({ p with checks := convertChecks p.checks }
        :: (convertDeferredChecksToToCheck ps).1) id c = _
    by_cases hp : (p.steam_id == id) = true
    · rw [statusOf_cons, if_pos hp, statusOf_cons, if_pos hp]
      exact objGet_convertChecks p.checks c
    · rw [statusOf_cons, if_neg hp, statusOf_cons, if_neg hp]
      exact ih

theorem statusOf_addProfileToQueue (q : List Profile) (aid u : String)
    (er : Option Bool) (ts : Nat) (id2 c2 s : String)
    (h : statusOf q id2 c2 = some s) :
    statusOf (addProfileToQueue q aid u er ts).2 id2 c2 = some s := by
  unfold addProfileToQueue
  cases hf : q.find? (fun p => p.steam_id == aid) with
  | some existing => exact h
  | none =>
    by_cases her : er = some true
    · simp only [her, if_pos]
      exact h
    · by_cases hu : (u == "") = true
      · simp only [her, hu, if_neg, if_pos]
        exact h
      · have hfind : ∃ p, q.find? (fun p => p.steam_id == id2) = some p := by
          unfold statusOf at h
          cases hq : q.find? (fun p => p.steam_id == id2) with
          | none => rw [hq] at h; exact absurd h (by simp)
          | some p => exact ⟨p, rfl⟩
        obtain ⟨p, hp⟩ := hfind
        rw [if_neg her, if_neg hu]
        show statusOf (q ++ [newProfile aid u ts]) id2 c2 = some s
        unfold statusOf at h ⊢
        rw [List.find?_append, hp]
        rw [hp] at h
        simpa [Option.or] using h

/-- The status transitions allowed by the amended monotonicity claim:
identity, to_check to a definitive or deferred status, and deferred back to
to_check or - via the deferred-check reprocessing path - directly to passed
or failed. Nothing leaves passed or failed. -/
def allowedTransition (s s2 : String) : Prop :=
  s2 = s
    ∨ (s = "to_check" ∧ (s2 = "passed" ∨ s2 = "failed" ∨ s2 = "deferred"))
    ∨ (s = "deferred" ∧ (s2 = "to_check" ∨ s2 = "passed" ∨ s2 = "failed"))

/-- The queue-file transitions performed by the system, one whole-file
rewrite each: an enqueue; a worker write of passed or deferred on a check it
read at to_check; an updateProfileCheck write of passed or failed issued by
the deferred-check reprocessing path on a check whose queue status is
deferred (the correspondence invariant between the in-memory deferred map
and the queue); a removal; and the batch rewrite of every deferred check to
to_check. -/
inductive SysStep : List Profile → List Profile → Prop
  | enqueue (q : List Profile) (id u : String) (er : Option Bool) (ts : Nat) :
      SysStep q (addProfileToQueue q id u er ts).2
  | workerWrite (q : List Profile) (id c s : String)
      (h : statusOf q id c = some "to_check") (hs : s = "passed" ∨ s = "deferred") :
      SysStep q (updateProfileCheck q id c s).2
  | deferredReprocess (q : List Profile) (id c s : String)
      (h : statusOf q id c = some "deferred") (hs : s = "passed" ∨ s = "failed") :
      SysStep q (updateProfileCheck q id c s).2
  | removeItem (q : List Profile) (id : String) :
      SysStep q (removeProfileFromQueue q id).2
  | convertDeferred (q : List Profile) :
      SysStep q (convertDeferredChecksToToCheck q).1

/-- C2 amended: across every queue-file transition of the system, a check
status changes only along to_check to passed, failed or deferred, deferred
back to to_check, or - on the deferred-check reprocessing path, which
writes definitive results directly - deferred to passed or failed; no
transition leaves passed or failed. -/
theorem c2_transitions_amended (q q2 : List Profile) (step : SysStep q q2)
    (id c st st2 : String)
    (hold : statusOf q id c = some st) (hnew : statusOf q2 id c = some st2) :
    allowedTransition st st2 := by
  cases step with
  | enqueue aid u er ts =>
    have h1 := statusOf_addProfileToQueue q aid u er ts id c st hold
    rw [h1] at hnew
    exact Or.inl (Option.some.inj hnew).symm
  | workerWrite wid wc ws hw hws =>
    rcases statusOf_updateProfileCheck q wid wc ws id c with h1 | ⟨hid, hc2, h1⟩
    · rw [h1, hold] at hnew
      exact Or.inl (Option.some.inj hnew).symm
    · have hst : st = "to_check" := by
        have hide := eq_of_beq hid
        have hce := eq_of_beq hc2
        rw [hide, hce] at hold
        rw [hold] at hw
        exact Option.some.inj hw
      have hst2 : st2 = ws := by
        rw [h1] at hnew
        exact (Option.some.inj hnew).symm
      right; left
      refine ⟨hst, ?_⟩
      rcases hws with h | h
      · left; rw [hst2, h]
      · right; right; rw [hst2, h]
  | deferredReprocess did dc ds hd hds =>
    rcases statusOf_updateProfileCheck q did dc ds id c with h1 | ⟨hid, hc2, h1⟩
    · rw [h1, hold] at hnew
      exact Or.inl (Option.some.inj hnew).symm
    · have hst : st = "deferred" := by
        have hide := eq_of_beq hid
        have hce := eq_of_beq hc2
        rw [hide, hce] at hold
        rw [hold] at hd
        exact Option.some.inj hd
      have hst2 : st2 = ds := by
        rw [h1] at hnew
        exact (Option.some.inj hnew).symm
      right; right
      refine ⟨hst, ?_⟩
      rcases hds with h | h
      · right; left; rw [hst2, h]
      · right; right; rw [hst2, h]
  | removeItem rid =>
    rcases statusOf_removeProfileFromQueue q rid id c with h1 | h1
    · rw [h1, hold] at hnew
      exact Or.inl (Option.some.inj hnew).symm
    · rw [h1] at hnew
      exact absurd hnew (by simp)
  | convertDeferred =>
    have h1 := statusOf_convert q id c
    rw [hold] at h1
    rw [h1] at hnew
    simp only [Option.map_some'] at hnew
    have hst2 : st2 = if (st == "deferred") = true then "to_check" else st :=
      (Option.some.inj hnew).symm
    by_cases hdd : st = "deferred"
    · right; right
      refine ⟨hdd, Or.inl ?_⟩
      rw [hst2, hdd]
      simp
    · left
      rw [hst2]
      simp [hdd]

/-- C2 witness: the amended theorem applied to the conversion step that
moves the deferred friends check of a concrete item back to to_check. -/
theorem c2_transitions_amended_witness : allowedTransition "deferred" "to_check" :=
  c2_transitions_amended [profileC2] (convertDeferredChecksToToCheck [profileC2]).1
    (SysStep.convertDeferred [profileC2]) "76561197960287930" "friends"
    "deferred" "to_check" (by decide) (by decide)
